import Mathlib

/-!
Shallow embedding of the device-inventory code: the `DeviceModel` class
(validators, search matching, relative-time formatting) and the `useDevices`
hook (create/update/delete actions, selection state, search filtering).
JavaScript strings are modelled through their character lists, timestamps as
integer milliseconds, and the GraphQL data-access collaborator as an injected
outcome value.
-/

namespace DeviceInventory

/-- Model of JS `toLowerCase()` applied to the character list of a string
(per-character ASCII case mapping, as in `Char.toLower`). -/
def lowerChars (cs : List Char) : List Char := cs.map Char.toLower

/-- Model of JS `trim()`: strip leading and trailing whitespace characters. -/
def trimChars (cs : List Char) : List Char :=
  ((cs.dropWhile Char.isWhitespace).reverse.dropWhile Char.isWhitespace).reverse

/-- `leadsWith pat cs` is true iff `pat` occurs at the very start of `cs`. -/
def leadsWith : List Char → List Char → Bool
  | [], _ => true
  | _ :: _, [] => false
  | p :: ps, c :: cs => (p == c) && leadsWith ps cs

/-- Model of JS `includes()`: `occursIn pat cs` is true iff `pat` occurs as a
contiguous run somewhere inside `cs`. -/
def occursIn (pat : List Char) : List Char → Bool
  | [] => leadsWith pat []
  | c :: cs => leadsWith pat (c :: cs) || occursIn pat cs

/-- Regex character-class repetition `p\x7blo,hi\x7d` whose follower in the
pattern cannot itself match `p` (true of every use below, where the class runs
are delimited by a hyphen, a dot, or the end of the string): consume the
maximal run of characters matching `p`, requiring its length to lie in
`[lo, hi]`, and return the remainder. -/
def chompClass (p : Char → Bool) (lo hi : Nat) (cs : List Char) : Option (List Char) :=
  if lo ≤ (cs.takeWhile p).length ∧ (cs.takeWhile p).length ≤ hi then
    some (cs.dropWhile p)
  else none

/-- Regex `\d+` (greedy, delimited by a non-digit follower): consume a
non-empty maximal run of decimal digits and return the remainder. -/
def chompDigits (cs : List Char) : Option (List Char) :=
  if (cs.takeWhile Char.isDigit).isEmpty then none
  else some (cs.dropWhile Char.isDigit)

/-- The raw `Device` entity of the generated GraphQL types, restricted to the
fields the model logic reads. Enum-valued fields (`type`, `status`) carry their
string wire values, nullable fields are `Option`, and `lastSeenAt` is an
integer millisecond timestamp (`none` when null). -/
structure Device where
  id : String
  name : String
  serialNumber : String
  type : String
  status : String
  firmwareVersion : String
  location : Option String
  lastSeenAt : Option Int
deriving DecidableEq

namespace DeviceModel

/-- The `DeviceModel.location` getter: `this.data.location || null`. A missing
field or a falsy (empty) string is normalised to null. -/
def location (d : Device) : Option String :=
  match d.location with
  | some l => if l = "" then none else some l
  | none => none

/-- `DeviceModel.isValidName`:
`name.trim().length >= 3 && name.trim().length <= 50`. -/
def isValidName (name : String) : Bool :=
  3 ≤ (trimChars name.data).length && (trimChars name.data).length ≤ 50

/-- `DeviceModel.isValidSerialNumber`: the regex test
`^[A-Z]\x7b2,4\x7d-\d\x7b3,4\x7d-[A-Z0-9]\x7b1,4\x7d$`. -/
def isValidSerialNumber (serialNumber : String) : Bool :=
  match chompClass Char.isUpper 2 4 serialNumber.data with
  | some ('-' :: r1) =>
    match chompClass Char.isDigit 3 4 r1 with
    | some ('-' :: r2) =>
      match chompClass (fun c => c.isUpper || c.isDigit) 1 4 r2 with
      | some [] => true
      | _ => false
    | _ => false
  | _ => false

/-- `DeviceModel.isValidFirmwareVersion`: the regex test `^\d+\.\d+\.\d+$`. -/
def isValidFirmwareVersion (version : String) : Bool :=
  match chompDigits version.data with
  | some ('.' :: r1) =>
    match chompDigits r1 with
    | some ('.' :: r2) =>
      match chompDigits r2 with
      | some [] => true
      | _ => false
    | _ => false
  | _ => false

/-- `DeviceModel.matchesSearch`: lowercase the search term once, then test JS
`includes` against the lowercased name, serial number, location (through the
normalising getter, contributing `false` when absent) and type, in the order
of the source. -/
def matchesSearch (d : Device) (searchTerm : String) : Bool :=
  let term := lowerChars searchTerm.data
  occursIn term (lowerChars d.name.data) ||
  occursIn term (lowerChars d.serialNumber.data) ||
  (match location d with
   | some l => occursIn term (lowerChars l.data)
   | none => false) ||
  occursIn term (lowerChars d.type.data)

/-- `DeviceModel.lastSeenFormatted`, parameterised by the current clock value
`now` in milliseconds. `Math.floor` applied to a JS number division of
integers is floored integer division, `Int.fdiv`. -/
def lastSeenFormatted (lastSeenAt : Option Int) (now : Int) : String :=
  match lastSeenAt with
  | none => "Never"
  | some t =>
    let diff := now - t
    let minutes := Int.fdiv diff 60000
    let hours := Int.fdiv minutes 60
    let days := Int.fdiv hours 24
    if days > 0 then
      toString days ++ " day" ++ (if days > 1 then "s" else "") ++ " ago"
    else if hours > 0 then
      toString hours ++ " hour" ++ (if hours > 1 then "s" else "") ++ " ago"
    else if minutes > 0 then
      toString minutes ++ " minute" ++ (if minutes > 1 then "s" else "") ++ " ago"
    else "Just now"

end DeviceModel

namespace UseDevices

/-- The `CreateDeviceInput` shape of the create mutation, in source field
order. -/
structure CreateDeviceInput where
  name : String
  serialNumber : String
  type : String
  firmwareVersion : String
  location : Option String
deriving DecidableEq

/-- The `UpdateDeviceInput` shape of the update mutation: `id` required, the
remaining fields optional. -/
structure UpdateDeviceInput where
  id : String
  name : Option String
  status : Option String
  firmwareVersion : Option String
  location : Option String
deriving DecidableEq

/-- Outcome of one mutation action of the `useDevices` hook: the error it
throws to its caller (`none` on success — the catch block re-throws every
error unchanged) and whether the collaborator mutation was invoked. -/
structure MutationResult where
  error : Option String
  collaboratorCalled : Bool
deriving DecidableEq

/-- `useDevices.createDevice`. The three validator guards run in source order
before the mutation; `collabError` injects the outcome of the collaborator
call itself (`none` for success), which the catch block re-throws unchanged. -/
def createDevice (collabError : Option String) (input : CreateDeviceInput) : MutationResult :=
  if !DeviceModel.isValidName input.name then
    ⟨some "Device name must be between 3 and 50 characters", false⟩
  else if !DeviceModel.isValidSerialNumber input.serialNumber then
    ⟨some "Invalid serial number format (expected: XX-000-XXX)", false⟩
  else if !DeviceModel.isValidFirmwareVersion input.firmwareVersion then
    ⟨some "Invalid firmware version format (expected: X.Y.Z)", false⟩
  else ⟨collabError, true⟩

/-- The guard `input.name && !DeviceModel.isValidName(input.name)` of
`updateDevice` under JS truthiness: it fires exactly when the field is
present, non-empty, and rejected by the validator. -/
def nameGuardFires (name : Option String) : Bool :=
  match name with
  | some n => !(n == "") && !DeviceModel.isValidName n
  | none => false

/-- The guard `input.firmwareVersion && !DeviceModel.isValidFirmwareVersion(...)`
of `updateDevice` under JS truthiness. -/
def firmwareGuardFires (version : Option String) : Bool :=
  match version with
  | some v => !(v == "") && !DeviceModel.isValidFirmwareVersion v
  | none => false

/-- `useDevices.updateDevice`: the two truthiness guards run in source order
before the mutation; `collabError` injects the collaborator outcome, which the
catch block re-throws unchanged. -/
def updateDevice (collabError : Option String) (input : UpdateDeviceInput) : MutationResult :=
  if nameGuardFires input.name then
    ⟨some "Device name must be between 3 and 50 characters", false⟩
  else if firmwareGuardFires input.firmwareVersion then
    ⟨some "Invalid firmware version format (expected: X.Y.Z)", false⟩
  else ⟨collabError, true⟩

/-- Outcome of `useDevices.deleteDevice`: the error thrown to the caller
(`none` on success) and the `selectedDeviceId` state after the call. -/
structure DeleteResult where
  error : Option String
  selectedDeviceId : Option String
deriving DecidableEq

/-- `useDevices.deleteDevice`: awaits the collaborator delete (outcome
injected as `collabError`). A throw is re-raised by the catch block before the
selection update runs, so `selectedDeviceId` is cleared only on success and
only when it equals the deleted id. -/
def deleteDevice (collabError : Option String) (selectedDeviceId : Option String)
    (deviceId : String) : DeleteResult :=
  match collabError with
  | some e => ⟨some e, selectedDeviceId⟩
  | none => ⟨none, if selectedDeviceId = some deviceId then none else selectedDeviceId⟩

/-- The derived `filteredDevices` value:
`searchTerm ? devices.filter(d => d.matchesSearch(searchTerm)) : devices`,
where the empty string is JS-falsy. -/
def filteredDevices (devices : List Device) (searchTerm : String) : List Device :=
  if searchTerm = "" then devices
  else devices.filter (fun d => DeviceModel.matchesSearch d searchTerm)

end UseDevices

/-- A concrete device value used to instantiate quantified theorems. -/
def sampleDevice : Device :=
  ⟨"1", "Test Sensor", "TS-001-A", "SENSOR", "ONLINE", "1.0.0", some "Building A", some 0⟩

/-! ### Helper lemmas -/

theorem leadsWith_iff (p : List Char) : ∀ s, leadsWith p s = true ↔ ∃ t, s = p ++ t := by
  induction p with
  | nil => intro s; simp [leadsWith]
  | cons x ps ih =>
    intro s
    cases s with
    | nil =>
      simp only [leadsWith, List.cons_append]
      constructor
      · intro h; exact absurd h (by simp)
      · rintro ⟨t, h⟩; exact absurd h (by simp)
    | cons c cs =>
      simp only [leadsWith, Bool.and_eq_true, beq_iff_eq, List.cons_append]
      constructor
      · rintro ⟨rfl, h⟩
        obtain ⟨t, rfl⟩ := (ih cs).mp h
        exact ⟨t, rfl⟩
      · rintro ⟨t, h⟩
        injection h with h1 h2
        exact ⟨h1.symm, (ih cs).mpr ⟨t, h2⟩⟩

theorem occursIn_iff (p : List Char) : ∀ s, occursIn p s = true ↔ ∃ u v, s = u ++ p ++ v := by
  intro s
  induction s with
  | nil =>
    simp only [occursIn, leadsWith_iff]
    constructor
    · rintro ⟨t, ht⟩
      exact ⟨[], t, by simpa using ht⟩
    · rintro ⟨u, v, h⟩
      have h' := h.symm
      rw [List.append_assoc] at h'
      obtain ⟨hu, hpv⟩ := List.append_eq_nil.mp h'
      obtain ⟨hp, hv⟩ := List.append_eq_nil.mp hpv
      exact ⟨[], by simp [hp]⟩
  | cons c cs ih =>
    simp only [occursIn, Bool.or_eq_true, leadsWith_iff, ih]
    constructor
    · rintro (⟨t, ht⟩ | ⟨u, v, hv⟩)
      · exact ⟨[], t, by simpa using ht⟩
      · exact ⟨c :: u, v, by simp [hv]⟩
    · rintro ⟨u, v, h⟩
      cases u with
      | nil => exact Or.inl ⟨v, by simpa using h⟩
      | cons a u =>
        rw [List.cons_append, List.cons_append] at h
        injection h with h1 h2
        exact Or.inr ⟨u, v, h2⟩

theorem occursIn_nil (s : List Char) : occursIn [] s = true := by
  cases s <;> simp [occursIn, leadsWith]

theorem takeWhile_append_run {p : Char → Bool} :
    ∀ {a : List Char}, (∀ c ∈ a, p c = true) →
      ∀ l, List.takeWhile p (a ++ l) = a ++ List.takeWhile p l := by
  intro a
  induction a with
  | nil => intro _ l; simp
  | cons x xs ih =>
    intro h l
    have hx : p x = true := h x (by simp)
    have hxs := ih (fun c hc => h c (by simp [hc]))
    simp [List.takeWhile_cons, hx, hxs l]

theorem dropWhile_append_run {p : Char → Bool} :
    ∀ {a : List Char}, (∀ c ∈ a, p c = true) →
      ∀ l, List.dropWhile p (a ++ l) = List.dropWhile p l := by
  intro a
  induction a with
  | nil => intro _ l; simp
  | cons x xs ih =>
    intro h l
    have hx : p x = true := h x (by simp)
    have hxs := ih (fun c hc => h c (by simp [hc]))
    simp [List.dropWhile_cons, hx, hxs l]

theorem chompDigits_eq_some {cs r : List Char} (h : chompDigits cs = some r) :
    ∃ ds, ds ≠ [] ∧ (∀ c ∈ ds, Char.isDigit c = true) ∧ cs = ds ++ r := by
  unfold chompDigits at h
  split at h
  · exact absurd h (by simp)
  · next hne =>
    injection h with h
    refine ⟨cs.takeWhile Char.isDigit, ?_, ?_, ?_⟩
    · intro hemp
      exact hne (by simp [hemp])
    · intro c hc
      exact List.mem_takeWhile_imp hc
    · rw [← h]
      exact (List.takeWhile_append_dropWhile Char.isDigit cs).symm

theorem chompDigits_run {a l : List Char} (ha : a ≠ [])
    (hd : ∀ c ∈ a, Char.isDigit c = true) :
    chompDigits (a ++ '.' :: l) = some ('.' :: l) := by
  have hdot : Char.isDigit '.' = false := by decide
  unfold chompDigits
  rw [takeWhile_append_run hd, dropWhile_append_run hd]
  simp [List.takeWhile_cons, List.dropWhile_cons, hdot, ha]

theorem chompDigits_run_end {a : List Char} (ha : a ≠ [])
    (hd : ∀ c ∈ a, Char.isDigit c = true) :
    chompDigits a = some [] := by
  have h1 : List.takeWhile Char.isDigit (a ++ []) = a ++ List.takeWhile Char.isDigit [] :=
    takeWhile_append_run hd []
  have h2 : List.dropWhile Char.isDigit (a ++ []) = List.dropWhile Char.isDigit [] :=
    dropWhile_append_run hd []
  rw [List.append_nil] at h1 h2
  unfold chompDigits
  simp only [h1, h2]
  simp [List.takeWhile, List.dropWhile, ha]

/-! ### Claim theorems -/

/-- C1: for every create input whose name, serial number, or firmware version
fails its validator, `createDevice` throws the validation error naming the
failing field and the collaborator mutation is not invoked; the collaborator
is invoked exactly when all three validators accept, and then the outcome of
the collaborator call is what the caller sees. -/
theorem createDevice_spec (collabError : Option String) (input : UseDevices.CreateDeviceInput) :
    (DeviceModel.isValidName input.name = false →
       UseDevices.createDevice collabError input =
         ⟨some "Device name must be between 3 and 50 characters", false⟩) ∧
    (DeviceModel.isValidName input.name = true →
     DeviceModel.isValidSerialNumber input.serialNumber = false →
       UseDevices.createDevice collabError input =
         ⟨some "Invalid serial number format (expected: XX-000-XXX)", false⟩) ∧
    (DeviceModel.isValidName input.name = true →
     DeviceModel.isValidSerialNumber input.serialNumber = true →
     DeviceModel.isValidFirmwareVersion input.firmwareVersion = false →
       UseDevices.createDevice collabError input =
         ⟨some "Invalid firmware version format (expected: X.Y.Z)", false⟩) ∧
    ((UseDevices.createDevice collabError input).collaboratorCalled = true ↔
       DeviceModel.isValidName input.name = true ∧
       DeviceModel.isValidSerialNumber input.serialNumber = true ∧
       DeviceModel.isValidFirmwareVersion input.firmwareVersion = true) ∧
    (DeviceModel.isValidName input.name = true →
     DeviceModel.isValidSerialNumber input.serialNumber = true →
     DeviceModel.isValidFirmwareVersion input.firmwareVersion = true →
       UseDevices.createDevice collabError input = ⟨collabError, true⟩) := by
  refine ⟨fun h1 => by simp [UseDevices.createDevice, h1],
          fun h1 h2 => by simp [UseDevices.createDevice, h1, h2],
          fun h1 h2 h3 => by simp [UseDevices.createDevice, h1, h2, h3],
          ?_,
          fun h1 h2 h3 => by simp [UseDevices.createDevice, h1, h2, h3]⟩
  cases h1 : DeviceModel.isValidName input.name <;>
    cases h2 : DeviceModel.isValidSerialNumber input.serialNumber <;>
      cases h3 : DeviceModel.isValidFirmwareVersion input.firmwareVersion <;>
        simp [UseDevices.createDevice, h1, h2, h3]

/-- C1 witness: `createDevice` at a name of trimmed length 2 throws the name
validation error without invoking the collaborator. -/
theorem createDevice_spec_witness :
    DeviceModel.isValidName "ab" = false ∧
    UseDevices.createDevice none ⟨"ab", "TS-001-A", "SENSOR", "1.0.0", none⟩ =
      ⟨some "Device name must be between 3 and 50 characters", false⟩ :=
  ⟨by decide, (createDevice_spec none ⟨"ab", "TS-001-A", "SENSOR", "1.0.0", none⟩).1 (by decide)⟩

/-- C2: a successful `deleteDevice` whose id equals the selected id clears the
selection and throws nothing; a failed delete re-throws the collaborator error
and leaves the selection untouched, whatever it was. -/
theorem deleteDevice_spec (id : String) (sel : Option String) (e : String) :
    (UseDevices.deleteDevice none (some id) id).selectedDeviceId = none ∧
    (UseDevices.deleteDevice none (some id) id).error = none ∧
    (UseDevices.deleteDevice (some e) sel id).error = some e ∧
    (UseDevices.deleteDevice (some e) sel id).selectedDeviceId = sel := by
  refine ⟨?_, rfl, rfl, rfl⟩
  simp [UseDevices.deleteDevice]

/-- C3 counterexample: an update whose `name` field is present and invalid —
the explicit empty string, rejected by `isValidName` — raises no validation
error and does reach the collaborator, contradicting the claim that any
present-but-invalid name is stopped before the collaborator call. -/
theorem updateDevice_claim_counterexample :
    DeviceModel.isValidName "" = false ∧
    (UseDevices.updateDevice none ⟨"1", some "", none, none, none⟩).error = none ∧
    (UseDevices.updateDevice none ⟨"1", some "", none, none, none⟩).collaboratorCalled = true := by
  decide

/-- C3 (amended): `updateDevice` validates `name` and `firmwareVersion` only
when present and non-empty (JS-truthy); a present, non-empty, invalid value
raises the field-identifying validation error before the collaborator call,
while an omitted field — or the explicit empty string, which is falsy — skips
validation, and the collaborator is invoked exactly when neither truthiness
guard fires. -/
theorem updateDevice_spec (collabError : Option String) (input : UseDevices.UpdateDeviceInput) :
    (∀ n, input.name = some n → n ≠ "" → DeviceModel.isValidName n = false →
       UseDevices.updateDevice collabError input =
         ⟨some "Device name must be between 3 and 50 characters", false⟩) ∧
    (UseDevices.nameGuardFires input.name = false →
     ∀ v, input.firmwareVersion = some v → v ≠ "" →
       DeviceModel.isValidFirmwareVersion v = false →
       UseDevices.updateDevice collabError input =
         ⟨some "Invalid firmware version format (expected: X.Y.Z)", false⟩) ∧
    ((UseDevices.updateDevice collabError input).collaboratorCalled = true ↔
       UseDevices.nameGuardFires input.name = false ∧
       UseDevices.firmwareGuardFires input.firmwareVersion = false) ∧
    (input.name = some "" → UseDevices.firmwareGuardFires input.firmwareVersion = false →
       UseDevices.updateDevice collabError input = ⟨collabError, true⟩) := by
  refine ⟨?_, ?_, ?_, ?_⟩
  · intro n hn hne hbad
    have hg : UseDevices.nameGuardFires input.name = true := by
      simp [UseDevices.nameGuardFires, hn, hne, hbad]
    simp [UseDevices.updateDevice, hg]
  · intro hg v hv hne hbad
    have hfg : UseDevices.firmwareGuardFires input.firmwareVersion = true := by
      simp [UseDevices.firmwareGuardFires, hv, hne, hbad]
    simp [UseDevices.updateDevice, hg, hfg]
  · cases hg : UseDevices.nameGuardFires input.name <;>
      cases hfg : UseDevices.firmwareGuardFires input.firmwareVersion <;>
        simp [UseDevices.updateDevice, hg, hfg]
  · intro hn hfg
    have hg : UseDevices.nameGuardFires input.name = false := by
      simp [UseDevices.nameGuardFires, hn]
    simp [UseDevices.updateDevice, hg, hfg]

/-- C3 witness: a present, non-empty, invalid name is stopped with the name
validation error before the collaborator call. -/
theorem updateDevice_spec_witness :
    DeviceModel.isValidName "ab" = false ∧
    UseDevices.updateDevice none ⟨"1", some "ab", none, none, none⟩ =
      ⟨some "Device name must be between 3 and 50 characters", false⟩ :=
  ⟨by decide,
   (updateDevice_spec none ⟨"1", some "ab", none, none, none⟩).1 "ab" rfl (by decide) (by decide)⟩

/-- C4: `isValidName` accepts exactly the strings whose trimmed length lies
between 3 and 50 inclusive. -/
theorem isValidName_spec (s : String) :
    DeviceModel.isValidName s = true ↔
      3 ≤ (trimChars s.data).length ∧ (trimChars s.data).length ≤ 50 := by
  simp [DeviceModel.isValidName]

/-- Claim-side reading of the firmware regex: the character list splits into
exactly three non-empty all-digit runs separated by single dots. -/
def VersionShape (s : String) : Prop :=
  ∃ a b c : List Char, a ≠ [] ∧ b ≠ [] ∧ c ≠ [] ∧
    (∀ ch ∈ a, Char.isDigit ch = true) ∧ (∀ ch ∈ b, Char.isDigit ch = true) ∧
    (∀ ch ∈ c, Char.isDigit ch = true) ∧ s.data = a ++ '.' :: (b ++ '.' :: c)

/-- C5: `isValidFirmwareVersion` accepts exactly the strings made of three
dot-separated runs of decimal digits; in particular the spec examples
`1.0`, `1.0.0.0`, `v1.0.0` and the empty string are rejected. -/
theorem isValidFirmwareVersion_spec :
    (∀ s : String, DeviceModel.isValidFirmwareVersion s = true ↔ VersionShape s) ∧
    DeviceModel.isValidFirmwareVersion "1.0" = false ∧
    DeviceModel.isValidFirmwareVersion "1.0.0.0" = false ∧
    DeviceModel.isValidFirmwareVersion "v1.0.0" = false ∧
    DeviceModel.isValidFirmwareVersion "" = false := by
  refine ⟨?_, by decide, by decide, by decide, by decide⟩
  intro s
  constructor
  · intro h
    unfold DeviceModel.isValidFirmwareVersion at h
    split at h
    · next r1 heq1 =>
      split at h
      · next r2 heq2 =>
        split at h
        · next heq3 =>
          obtain ⟨a, ha, da, hsa⟩ := chompDigits_eq_some heq1
          obtain ⟨b, hb, db, hsb⟩ := chompDigits_eq_some heq2
          obtain ⟨c, hc, dc, hsc⟩ := chompDigits_eq_some heq3
          rw [List.append_nil] at hsc
          exact ⟨a, b, c, ha, hb, hc, da, db, dc, by rw [hsa, hsb, hsc]⟩
        · exact absurd h (by simp)
      · exact absurd h (by simp)
    · exact absurd h (by simp)
  · rintro ⟨a, b, c, ha, hb, hc, da, db, dc, hs⟩
    unfold DeviceModel.isValidFirmwareVersion
    rw [hs, chompDigits_run ha da]
    simp only
    rw [chompDigits_run hb db]
    simp only
    rw [chompDigits_run_end hc dc]

/-- Claim-side reading of JS `includes`: `pat` occurs contiguously in `s`. -/
def SubstrOf (pat s : List Char) : Prop := ∃ u v, s = u ++ pat ++ v

/-- C6: `matchesSearch` is true exactly when the lowercased term occurs as a
contiguous substring of the lowercased name, serial number, type, or location,
the location disjunct requiring the normalising getter to yield a value (absent
or empty location contributes false); the disjunction is stated in an order
different from the source, so matching is independent of which field holds the
term. -/
theorem matchesSearch_spec (d : Device) (term : String) :
    DeviceModel.matchesSearch d term = true ↔
      (SubstrOf (lowerChars term.data) (lowerChars d.name.data) ∨
       SubstrOf (lowerChars term.data) (lowerChars d.serialNumber.data) ∨
       SubstrOf (lowerChars term.data) (lowerChars d.type.data) ∨
       ∃ l, DeviceModel.location d = some l ∧
         SubstrOf (lowerChars term.data) (lowerChars l.data)) := by
  have hname := occursIn_iff (lowerChars term.data) (lowerChars d.name.data)
  have hserial := occursIn_iff (lowerChars term.data) (lowerChars d.serialNumber.data)
  have htype := occursIn_iff (lowerChars term.data) (lowerChars d.type.data)
  cases hl : DeviceModel.location d with
  | none =>
    simp only [DeviceModel.matchesSearch, Bool.or_eq_true, hl, Bool.false_eq_true, or_false]
    constructor
    · rintro ((h | h) | h)
      · exact Or.inl (hname.mp h)
      · exact Or.inr (Or.inl (hserial.mp h))
      · exact Or.inr (Or.inr (Or.inl (htype.mp h)))
    · rintro (h | h | h | ⟨l', hl2, h⟩)
      · exact Or.inl (Or.inl (hname.mpr h))
      · exact Or.inl (Or.inr (hserial.mpr h))
      · exact Or.inr (htype.mpr h)
      · exact absurd hl2 (by simp)
  | some l =>
    have hloc := occursIn_iff (lowerChars term.data) (lowerChars l.data)
    simp only [DeviceModel.matchesSearch, Bool.or_eq_true, hl]
    constructor
    · rintro (((h | h) | h) | h)
      · exact Or.inl (hname.mp h)
      · exact Or.inr (Or.inl (hserial.mp h))
      · exact Or.inr (Or.inr (Or.inr ⟨l, rfl, hloc.mp h⟩))
      · exact Or.inr (Or.inr (Or.inl (htype.mp h)))
    · rintro (h | h | h | ⟨l', hl2, h⟩)
      · exact Or.inl (Or.inl (Or.inl (hname.mpr h)))
      · exact Or.inl (Or.inl (Or.inr (hserial.mpr h)))
      · exact Or.inr (htype.mpr h)
      · injection hl2 with hll
        subst hll
        exact Or.inl (Or.inr (hloc.mpr h))

/-- C7: with the empty search term `filteredDevices` is `devices` itself; with
a non-empty term it is exactly the filter of `devices` by `matchesSearch`,
hence an order-preserving sub-list, and a term matched by exactly one record
gives a list of length 1. -/
theorem filteredDevices_spec (devices : List Device) (term : String) :
    (term = "" → UseDevices.filteredDevices devices term = devices) ∧
    (term ≠ "" →
      UseDevices.filteredDevices devices term =
          devices.filter (fun d => DeviceModel.matchesSearch d term) ∧
        (UseDevices.filteredDevices devices term).Sublist devices ∧
        (devices.countP (fun d => DeviceModel.matchesSearch d term) = 1 →
          (UseDevices.filteredDevices devices term).length = 1)) := by
  constructor
  · intro h
    simp [UseDevices.filteredDevices, h]
  · intro h
    have hf : UseDevices.filteredDevices devices term =
        devices.filter (fun d => DeviceModel.matchesSearch d term) := by
      simp [UseDevices.filteredDevices, h]
    refine ⟨hf, ?_, ?_⟩
    · rw [hf]
      exact List.filter_sublist devices
    · intro hc
      rw [hf, ← List.countP_eq_length_filter]
      exact hc

/-- C7 witness: the two branches at a one-element device list. -/
theorem filteredDevices_spec_witness :
    UseDevices.filteredDevices [sampleDevice] "" = [sampleDevice] ∧
    UseDevices.filteredDevices [sampleDevice] "xyz" =
      List.filter (fun d => DeviceModel.matchesSearch d "xyz") [sampleDevice] :=
  ⟨(filteredDevices_spec [sampleDevice] "").1 rfl,
   ((filteredDevices_spec [sampleDevice] "xyz").2 (by decide)).1⟩

/-- C9: every device matches the empty search term — the empty string occurs
in every name — so filtering by the empty term would already leave the list
unchanged even without the explicit empty-term branch of the controller. -/
theorem matchesSearch_empty_true (d : Device) (devices : List Device) :
    DeviceModel.matchesSearch d "" = true ∧
    devices.filter (fun x => DeviceModel.matchesSearch x "") = devices := by
  have hterm : lowerChars ("" : String).data = [] := rfl
  have hone : ∀ x : Device, DeviceModel.matchesSearch x "" = true := by
    intro x
    simp only [DeviceModel.matchesSearch, hterm, occursIn_nil, Bool.true_or]
  exact ⟨hone d, List.filter_eq_self.mpr fun a _ => hone a⟩

/-- C8: `lastSeenFormatted` returns `Never` when the timestamp is absent and
otherwise, with elapsed milliseconds `e`, walks the exclusive ladder
`Just now` below one minute, floored minutes below one hour, floored hours
below one day, floored days beyond, the unit word singular exactly when the
floored count is 1. -/
theorem lastSeenFormatted_spec (t : Option Int) (now : Int) :
    (t = none → DeviceModel.lastSeenFormatted t now = "Never") ∧
    (∀ ts, t = some ts →
      ((now - ts < 60000 → DeviceModel.lastSeenFormatted t now = "Just now") ∧
       (60000 ≤ now - ts → now - ts < 3600000 →
         DeviceModel.lastSeenFormatted t now =
           toString (Int.fdiv (now - ts) 60000) ++ " minute" ++
             (if Int.fdiv (now - ts) 60000 = 1 then "" else "s") ++ " ago") ∧
       (3600000 ≤ now - ts → now - ts < 86400000 →
         DeviceModel.lastSeenFormatted t now =
           toString (Int.fdiv (now - ts) 3600000) ++ " hour" ++
             (if Int.fdiv (now - ts) 3600000 = 1 then "" else "s") ++ " ago") ∧
       (86400000 ≤ now - ts →
         DeviceModel.lastSeenFormatted t now =
           toString (Int.fdiv (now - ts) 86400000) ++ " day" ++
             (if Int.fdiv (now - ts) 86400000 = 1 then "" else "s") ++ " ago"))) := by
  have e1 : ∀ a : Int, Int.fdiv a 60000 = a / 60000 := fun a => Int.fdiv_eq_ediv a (by norm_num)
  have e2 : ∀ a : Int, Int.fdiv a 60 = a / 60 := fun a => Int.fdiv_eq_ediv a (by norm_num)
  have e3 : ∀ a : Int, Int.fdiv a 24 = a / 24 := fun a => Int.fdiv_eq_ediv a (by norm_num)
  have e4 : ∀ a : Int, Int.fdiv a 3600000 = a / 3600000 :=
    fun a => Int.fdiv_eq_ediv a (by norm_num)
  have e5 : ∀ a : Int, Int.fdiv a 86400000 = a / 86400000 :=
    fun a => Int.fdiv_eq_ediv a (by norm_num)
  constructor
  · rintro rfl
    rfl
  · rintro ts rfl
    simp only [DeviceModel.lastSeenFormatted, e1, e2, e3, e4, e5]
    refine ⟨?_, ?_, ?_, ?_⟩
    · intro h
      rw [if_neg (by omega : ¬(now - ts) / 60000 / 60 / 24 > 0),
        if_neg (by omega : ¬(now - ts) / 60000 / 60 > 0),
        if_neg (by omega : ¬(now - ts) / 60000 > 0)]
    · intro h1 h2
      rw [if_neg (by omega : ¬(now - ts) / 60000 / 60 / 24 > 0),
        if_neg (by omega : ¬(now - ts) / 60000 / 60 > 0),
        if_pos (by omega : (now - ts) / 60000 > 0)]
      by_cases hone : (now - ts) / 60000 = 1
      · rw [hone, if_neg (by norm_num), if_pos rfl]
      · rw [if_pos (by omega : (now - ts) / 60000 > 1), if_neg hone]
    · intro h1 h2
      have hc : (now - ts) / 60000 / 60 = (now - ts) / 3600000 := by omega
      rw [if_neg (by omega : ¬(now - ts) / 60000 / 60 / 24 > 0),
        if_pos (by omega : (now - ts) / 60000 / 60 > 0), hc]
      by_cases hone : (now - ts) / 3600000 = 1
      · rw [hone, if_neg (by norm_num), if_pos rfl]
      · rw [if_pos (by omega : (now - ts) / 3600000 > 1), if_neg hone]
    · intro h1
      have hc1 : (now - ts) / 60000 / 60 = (now - ts) / 3600000 := by omega
      have hc2 : (now - ts) / 3600000 / 24 = (now - ts) / 86400000 := by omega
      rw [hc1, hc2, if_pos (by omega : (now - ts) / 86400000 > 0)]
      by_cases hone : (now - ts) / 86400000 = 1
      · rw [hone, if_neg (by norm_num), if_pos rfl]
      · rw [if_pos (by omega : (now - ts) / 86400000 > 1), if_neg hone]

/-- C8 witness: the ladder at concrete elapsed times of 0 ms, 30 minutes,
2 hours and 3 days. -/
theorem lastSeenFormatted_spec_witness :
    DeviceModel.lastSeenFormatted none 5 = "Never" ∧
    DeviceModel.lastSeenFormatted (some 0) 0 = "Just now" ∧
    DeviceModel.lastSeenFormatted (some 0) 1800000 = "30 minutes ago" ∧
    DeviceModel.lastSeenFormatted (some 0) 7200000 = "2 hours ago" ∧
    DeviceModel.lastSeenFormatted (some 0) 259200000 = "3 days ago" := by
  refine ⟨(lastSeenFormatted_spec none 5).1 rfl,
    ((lastSeenFormatted_spec (some 0) 0).2 0 rfl).1 (by decide), ?_, ?_, ?_⟩
  · have h := ((lastSeenFormatted_spec (some 0) 1800000).2 0 rfl).2.1 (by decide) (by decide)
    rw [h]
    decide
  · have h := ((lastSeenFormatted_spec (some 0) 7200000).2 0 rfl).2.2.1 (by decide) (by decide)
    rw [h]
    decide
  · have h := ((lastSeenFormatted_spec (some 0) 259200000).2 0 rfl).2.2.2 (by decide)
    rw [h]
    decide

/-- C10: a timestamp strictly in the future of the clock (negative elapsed
time) falls through all three strictly-positive branch tests and yields
`Just now`. -/
theorem lastSeenFormatted_future (t now : Int) (h : now < t) :
    DeviceModel.lastSeenFormatted (some t) now = "Just now" := by
  have e1 : ∀ a : Int, Int.fdiv a 60000 = a / 60000 := fun a => Int.fdiv_eq_ediv a (by norm_num)
  have e2 : ∀ a : Int, Int.fdiv a 60 = a / 60 := fun a => Int.fdiv_eq_ediv a (by norm_num)
  have e3 : ∀ a : Int, Int.fdiv a 24 = a / 24 := fun a => Int.fdiv_eq_ediv a (by norm_num)
  simp only [DeviceModel.lastSeenFormatted, e1, e2, e3]
  rw [if_neg (by omega : ¬(now - t) / 60000 / 60 / 24 > 0),
    if_neg (by omega : ¬(now - t) / 60000 / 60 > 0),
    if_neg (by omega : ¬(now - t) / 60000 > 0)]

/-- C10 witness: a timestamp 7 ms in the future formats as `Just now`. -/
theorem lastSeenFormatted_future_witness :
    (3 : Int) < 10 ∧ DeviceModel.lastSeenFormatted (some 10) 3 = "Just now" :=
  ⟨by decide, lastSeenFormatted_future 10 3 (by decide)⟩

end DeviceInventory
